import Mathlib

/-!
Verification of the AppleScript MCP server's script resolution, templating,
execution and diagnostics pipeline.

The TypeScript sources are shallowly embedded: pure functions become Lean
functions over `List Char` / `String`, and the effectful executors
(`runAppleScript`, `compileAndRun`, `cleanupDebugFiles`, `saveDebugScript`)
become pure functions over an explicit outcome/state argument describing what
the operating system did (process exit code and streams, timeout, spawn
failure, file system contents).  JavaScript string primitives
(`toLowerCase`, `includes`, `trim`, `split`, regular expression search) are
modelled by hand-rolled recursive functions on character lists so that every
definition evaluates by kernel reduction.
-/

/-! ## Character-list string helpers (models of JS string primitives) -/

/-- Model of JS `String.prototype.startsWith` on character lists:
`charsStartWith text pat` is true when `pat` is an initial segment of `text`. -/
def charsStartWith : List Char → List Char → Bool
  | _, [] => true
  | [], _ :: _ => false
  | c :: cs, p :: ps => c = p && charsStartWith cs ps

/-- Model of JS `String.prototype.includes` on character lists. -/
def charsContain : List Char → List Char → Bool
  | [], pat => charsStartWith [] pat
  | c :: rest, pat => charsStartWith (c :: rest) pat || charsContain rest pat

/-- Model of JS `String.prototype.includes`. -/
def containsSub (s pat : String) : Bool :=
  charsContain s.data pat.data

/-- Model of JS `String.prototype.toLowerCase` (ASCII range, as used here). -/
def lowerString (s : String) : String :=
  String.mk (s.data.map Char.toLower)

/-- Model of JS `String.prototype.endsWith`. -/
def strEndsWith (s suffix : String) : Bool :=
  charsStartWith s.data.reverse suffix.data.reverse

/-- Model of JS `String.prototype.trim` on character lists. -/
def trimChars (l : List Char) : List Char :=
  ((l.dropWhile Char.isWhitespace).reverse.dropWhile Char.isWhitespace).reverse

/-- Model of JS `String.prototype.trim`. -/
def trimString (s : String) : String :=
  String.mk (trimChars s.data)

/-- Model of JS `split(sep)` for a single-character separator: splitting the
empty string yields one empty field, and separators delimit fields. -/
def splitOnChar (sep : Char) : List Char → List (List Char)
  | [] => [[]]
  | c :: rest =>
    let r := splitOnChar sep rest
    if c = sep then [] :: r
    else
      match r with
      | [] => [[c]]
      | h :: t => (c :: h) :: t

/-- `split('\n')` of a string, as lists of characters per line. -/
def splitLines (s : String) : List (List Char) :=
  splitOnChar '\n' s.data

/-- Numeric value of a nonempty digit run, as JS `parseInt(_, 10)` computes it
on an all-digit string. -/
def digitsToNat (ds : List Char) : Nat :=
  ds.foldl (fun acc c => acc * 10 + (c.toNat - '0'.toNat)) 0

/-! ## Error classifier (`errorHandler.ts`) -/

/-- The closed error taxonomy `ErrorType` of `errorHandler.ts`. -/
inductive ErrorType where
  | permission
  | timeout
  | script_error
  | system_error
  | disabled
deriving DecidableEq, Repr

/-- `parseAppleScriptError` from `errorHandler.ts`: ordered substring tests
over the lowercased diagnostic text.  The `code` argument is accepted and
ignored exactly as in the source. -/
def parseAppleScriptError (stderr : String) (_code : Option Int) : ErrorType :=
  let stderrLower := lowerString stderr
  if containsSub stderrLower "not authorized" ||
     containsSub stderrLower "not allowed" ||
     containsSub stderrLower "permission denied" ||
     containsSub stderrLower "operation not permitted" then
    .permission
  else if containsSub stderrLower "timeout" || containsSub stderrLower "timed out" then
    .timeout
  else if containsSub stderrLower "syntax error" ||
          containsSub stderrLower "execution error" ||
          containsSub stderrLower "expected" ||
          containsSub stderrLower "can\x27t get" ||
          containsSub stderrLower "can\x27t make" then
    .script_error
  else
    .system_error

/-- The specification's rule table for the classifier: ordered rules, each a
list of phrases mapped to a kind; first rule with any matching phrase wins. -/
def specClassifierRules : List (List String × ErrorType) :=
  [(["not authorized", "not allowed", "permission denied", "operation not permitted"],
    .permission),
   (["timeout", "timed out"], .timeout),
   (["syntax error", "execution error", "expected", "can\x27t get", "can\x27t make"],
    .script_error)]

/-- First-match evaluation of a classifier rule table over lowercased text. -/
def classifyByRules : List (List String × ErrorType) → String → ErrorType
  | [], _ => .system_error
  | (phrases, kind) :: rest, low =>
    if phrases.any (fun p => containsSub low p) then kind else classifyByRules rest low

/-- The specification's description of classification: first-match ordered
pattern matching over the lowercased diagnostic text. -/
def specClassify (stderr : String) : ErrorType :=
  classifyByRules specClassifierRules (lowerString stderr)

/-- Capture of `\s*(.+)` at the start of a character list, with JS regex
backtracking semantics: the whitespace run is consumed greedily but gives
characters back until `.+` (one or more non-newline characters) can match. -/
def captureAfterColons (t : List Char) : Option (List Char) :=
  let afterWs := t.dropWhile Char.isWhitespace
  match afterWs with
  | _ :: _ => some (afterWs.takeWhile (fun c => c ≠ '\n'))
  | [] =>
    match (t.takeWhile Char.isWhitespace).reverse.dropWhile (fun c => c = '\n') with
    | [] => none
    | c :: _ => some [c]

/-- Match of `\d+:\d+:\s*(.+)` anchored at the start of a character list,
returning the capture group. -/
def matchLineColMsgAt (t : List Char) : Option (List Char) :=
  let d1 := t.takeWhile Char.isDigit
  let r1 := t.dropWhile Char.isDigit
  if d1.isEmpty then none
  else
    match r1 with
    | ':' :: r2 =>
      let d2 := r2.takeWhile Char.isDigit
      let r3 := r2.dropWhile Char.isDigit
      if d2.isEmpty then none
      else
        match r3 with
        | ':' :: r4 => captureAfterColons r4
        | _ => none
    | _ => none

/-- Leftmost match of `\d+:\d+:\s*(.+)` in a character list (model of
`stderr.match(...)` returning capture group 1). -/
def findLineColMsg : List Char → Option (List Char)
  | [] => none
  | c :: rest =>
    match matchLineColMsgAt (c :: rest) with
    | some cap => some cap
    | none => findLineColMsg rest

/-- `extractErrorMessage` from `errorHandler.ts`: the trimmed capture of
`\d+:\d+:\s*(.+)` when the diagnostic matches, otherwise the first line with
nonblank content, otherwise the raw text. -/
def extractErrorMessage (stderr : String) : String :=
  match findLineColMsg stderr.data with
  | some cap => String.mk (trimChars cap)
  | none =>
    let lines := (splitLines stderr).filter (fun l => (trimChars l).length > 0)
    match lines with
    | l :: _ => String.mk l
    | [] => stderr

/-- `generateErrorHint` from `errorHandler.ts`. -/
def generateErrorHint (errorType : ErrorType) (message : String) : String :=
  match errorType with
  | .permission =>
    "This operation requires Automation permissions. Ask the user to grant permissions in System Settings > Privacy & Security > Automation. You can use the check_applescript_permissions tool to verify."
  | .timeout =>
    "The script execution timed out. Consider increasing the timeout parameter or optimizing the script."
  | .script_error =>
    if containsSub (lowerString message) "syntax error" then
      "There is a syntax error in the AppleScript. Check the script for proper AppleScript syntax."
    else if containsSub (lowerString message) "can\x27t get" ||
            containsSub (lowerString message) "can\x27t make" then
      "The script tried to access something that doesn\x27t exist. Verify the object/property exists before accessing it."
    else
      "The script encountered an execution error. Review the error message and check the script logic."
  | .disabled =>
    "This tool is disabled for safety. To enable it, set ENABLE_ARBITRARY_SCRIPTS=true in the environment configuration."
  | .system_error =>
    "A system error occurred. Check that the target application is installed and running (if required)."

/-- `AppleScriptError` from `errorHandler.ts`. -/
structure AppleScriptError where
  type : ErrorType
  message : String
  code : Option String
  hint : Option String
  details : Option String
deriving DecidableEq, Repr

/-- The `metadata` component of `AppleScriptResult`. -/
structure ResultMetadata where
  executionTime : Nat
  scriptPath : Option String
  timeoutUsed : Nat
deriving DecidableEq, Repr

/-- `AppleScriptResult` from `errorHandler.ts`. -/
structure AppleScriptResult where
  success : Bool
  result : Option String
  error : Option AppleScriptError
  metadata : ResultMetadata
deriving DecidableEq, Repr

/-- `createErrorResult` from `errorHandler.ts`. -/
def createErrorResult (errorType : ErrorType) (message : String) (executionTime : Nat)
    (scriptPath : Option String) (timeoutUsed : Option Nat) (code : Option String)
    (details : Option String) : AppleScriptResult :=
  { success := false
    result := none
    error := some
      { type := errorType
        message := message
        hint := some (generateErrorHint errorType message)
        code := code
        details := details }
    metadata :=
      { executionTime := executionTime
        timeoutUsed := timeoutUsed.getD 0
        scriptPath := scriptPath } }

/-- `createSuccessResult` from `errorHandler.ts`. -/
def createSuccessResult (result : String) (executionTime : Nat)
    (scriptPath : Option String) (timeoutUsed : Option Nat) : AppleScriptResult :=
  { success := true
    result := some result
    error := none
    metadata :=
      { executionTime := executionTime
        timeoutUsed := timeoutUsed.getD 0
        scriptPath := scriptPath } }

/-- Invariant checked for every pipeline result: `success` holds exactly when
`error` is absent, and `result` and `error` are never both populated. -/
def resultInvariant (r : AppleScriptResult) : Bool :=
  (r.success == r.error.isNone) && (r.result.isNone || r.error.isNone)

/-! ## Timeout validation (`scriptRunner.ts`) -/

/-- `getDefaultTimeout` from `scriptRunner.ts`: the environment-supplied
default (already parsed to a number) or 30000 ms. -/
def getDefaultTimeout (envDefault : Option Nat) : Nat :=
  match envDefault with
  | some v => v
  | none => 30000

/-- `getMaxTimeout` from `scriptRunner.ts`: the environment-supplied maximum
(already parsed to a number) or 300000 ms. -/
def getMaxTimeout (envMax : Option Nat) : Nat :=
  match envMax with
  | some v => v
  | none => 300000

/-- `validateTimeout` from `scriptRunner.ts`.  The source computes
`requestedTimeout = timeout || defaultTimeout`, so an absent value AND a
requested value of `0` (falsy in JS) both fall back to the default, and the
result is `Math.min(requestedTimeout, maxTimeout)`. -/
def validateTimeout (timeout : Option Nat) (envDefault envMax : Option Nat) : Nat :=
  let defaultTimeout := getDefaultTimeout envDefault
  let maxTimeout := getMaxTimeout envMax
  let requestedTimeout :=
    match timeout with
    | none => defaultTimeout
    | some 0 => defaultTimeout
    | some t => t
  min requestedTimeout maxTimeout

/-- The specification's formula `min(requested ?? configuredDefault,
configuredMax)`, where `??` is nullish coalescing (only an absent value falls
back to the default). -/
def specTimeout (requested : Option Nat) (envDefault envMax : Option Nat) : Nat :=
  min (requested.getD (getDefaultTimeout envDefault)) (getMaxTimeout envMax)

/-! ## Template renderer (`templateRenderer.ts`) -/

/-- The typed values a render context may hold (JS string, number, boolean,
null/undefined, array, string-keyed record; numbers restricted to integers,
the only numeric values the pipeline supplies). -/
inductive Value where
  | str (s : String)
  | num (n : Int)
  | bool (b : Bool)
  | null
  | list (items : List Value)
  | record (fields : List (String × Value))
deriving Repr

/-- JSON string-body escaping as `JSON.stringify` performs it for the
characters appearing here: backslash, double quote and the common control
characters get two-character escapes. -/
def jsonEscapeChars : List Char → List Char
  | [] => []
  | c :: rest =>
    if c = '\\' then '\\' :: '\\' :: jsonEscapeChars rest
    else if c = '"' then '\\' :: '"' :: jsonEscapeChars rest
    else if c = '\n' then '\\' :: 'n' :: jsonEscapeChars rest
    else if c = '\t' then '\\' :: 't' :: jsonEscapeChars rest
    else if c = '\x0d' then '\\' :: 'r' :: jsonEscapeChars rest
    else c :: jsonEscapeChars rest

mutual

/-- Model of `JSON.stringify` on `Value` (used by `toAppleScriptList` for
record elements). -/
def jsonStringify : Value → String
  | .str s => String.mk ('"' :: jsonEscapeChars s.data ++ ['"'])
  | .num n => toString n
  | .bool b => if b then "true" else "false"
  | .null => "null"
  | .list items => "[" ++ jsonStringifyItems items ++ "]"
  | .record fields => "\x7b" ++ jsonStringifyFields fields ++ "\x7d"

/-- Comma-joined `JSON.stringify` of array elements. -/
def jsonStringifyItems : List Value → String
  | [] => ""
  | [v] => jsonStringify v
  | v :: vs => jsonStringify v ++ "," ++ jsonStringifyItems vs

/-- Comma-joined `JSON.stringify` of object entries. -/
def jsonStringifyFields : List (String × Value) → String
  | [] => ""
  | [(k, v)] => String.mk ('"' :: jsonEscapeChars k.data ++ ['"']) ++ ":" ++ jsonStringify v
  | (k, v) :: kvs =>
    String.mk ('"' :: jsonEscapeChars k.data ++ ['"']) ++ ":" ++ jsonStringify v ++ "," ++
      jsonStringifyFields kvs

end

/-- Backslash escaping pass of `escapeAppleScriptString` (performed first). -/
def escapeBackslashes : List Char → List Char
  | [] => []
  | c :: rest =>
    if c = '\\' then '\\' :: '\\' :: escapeBackslashes rest
    else c :: escapeBackslashes rest

/-- Double-quote escaping pass of `escapeAppleScriptString` (performed second). -/
def escapeQuotes : List Char → List Char
  | [] => []
  | c :: rest =>
    if c = '"' then '\\' :: '"' :: escapeQuotes rest
    else c :: escapeQuotes rest

/-- `escapeAppleScriptString` from `templateRenderer.ts`: escape backslashes,
then escape double quotes, then wrap in double quotes. -/
def escapeAppleScriptString (value : String) : String :=
  String.mk ('"' :: escapeQuotes (escapeBackslashes value.data) ++ ['"'])

/-- Comma-plus-space join used by the AppleScript list and record builders. -/
def joinCommaSp : List String → String
  | [] => ""
  | [s] => s
  | s :: rest => s ++ ", " ++ joinCommaSp rest

mutual

/-- The per-element conversion inside `toAppleScriptList`: note that a record
element falls into the final `else` branch of the source and is converted to
an escaped `JSON.stringify` string, not to a record literal.  The `.list`
branch is `toAppleScriptList`'s body, written inline so the mutual recursion
is structural. -/
def listItemToAS : Value → String
  | .str s => escapeAppleScriptString s
  | .num n => toString n
  | .bool b => if b then "true" else "false"
  | .null => "missing value"
  | .list items => "\x7b" ++ joinCommaSp (listItemsToAS items) ++ "\x7d"
  | .record fields => escapeAppleScriptString (jsonStringify (.record fields))

/-- `arr.map` over the list-element conversion. -/
def listItemsToAS : List Value → List String
  | [] => []
  | v :: vs => listItemToAS v :: listItemsToAS vs

/-- The per-value conversion inside `toAppleScriptRecord`: here a record
value recurses into the record builder, and the `.list`/`.record` branches
are the bodies of `toAppleScriptList`/`toAppleScriptRecord` written inline. -/
def recordValueToAS : Value → String
  | .str s => escapeAppleScriptString s
  | .num n => toString n
  | .bool b => if b then "true" else "false"
  | .null => "missing value"
  | .list items => "\x7b" ++ joinCommaSp (listItemsToAS items) ++ "\x7d"
  | .record fields => "\x7b" ++ joinCommaSp (fieldsToAS fields) ++ "\x7d"

/-- `Object.entries(obj).map` over the record-entry conversion. -/
def fieldsToAS : List (String × Value) → List String
  | [] => []
  | (k, v) :: rest => (k ++ ":" ++ recordValueToAS v) :: fieldsToAS rest

end

/-- `toAppleScriptList` from `templateRenderer.ts`. -/
def toAppleScriptList (arr : List Value) : String :=
  "\x7b" ++ joinCommaSp (listItemsToAS arr) ++ "\x7d"

/-- `toAppleScriptRecord` from `templateRenderer.ts`. -/
def toAppleScriptRecord (fields : List (String × Value)) : String :=
  "\x7b" ++ joinCommaSp (fieldsToAS fields) ++ "\x7d"

/-- The per-value conversion inside `renderTemplate`'s replacement callback
(same branch order as the source: array, object, string, number/boolean,
null, fallback). -/
def renderTemplateValue : Value → String
  | .list items => toAppleScriptList items
  | .record fields => toAppleScriptRecord fields
  | .str s => escapeAppleScriptString s
  | .num n => toString n
  | .bool b => if b then "true" else "false"
  | .null => "missing value"

/-- The distinct error thrown by `renderTemplate` on a placeholder whose name
has no key in the context (`Template variable '...' is not defined`). -/
inductive TemplateError where
  | missingVariable (varName : String)
deriving DecidableEq, Repr

/-- Render-context lookup `vars[name]`: `none` models JS `undefined`. -/
def lookupVar (vars : List (String × Value)) (name : String) : Option Value :=
  (vars.find? (fun p => p.1 = name)).map (fun p => p.2)

/-- The scan of `template.replace(/\$\{([^}]+)\}/g, ...)` from
`renderTemplate`, on character lists.  A `${` followed by one or more
non-`}` characters and a closing `}` is a placeholder; on a missing context
key the scan aborts with the missing-variable error, otherwise the converted
value is spliced in and scanning resumes after the placeholder.  Anything
else is copied verbatim (an unmatched `$` advances by one character, exactly
as the regex engine does).  `fuel` bounds the recursion; every call consumes
at least one character, so `length + 1` fuel always suffices. -/
def renderChars (vars : List (String × Value)) :
    Nat → List Char → Except TemplateError (List Char)
  | 0, l => .ok l
  | _ + 1, [] => .ok []
  | fuel + 1, c :: rest =>
    if c = '$' && rest.head? == some '{' then
      let rest2 := rest.tail
      let content := rest2.takeWhile (fun x => x ≠ '}')
      let after := rest2.dropWhile (fun x => x ≠ '}')
      if content.isEmpty || after.isEmpty then
        Except.map (fun r => c :: r) (renderChars vars fuel rest)
      else
        let varName := String.mk content
        match lookupVar vars (trimString varName) with
        | none => .error (.missingVariable varName)
        | some v =>
          Except.map (fun r => (renderTemplateValue v).data ++ r)
            (renderChars vars fuel after.tail)
    else
      Except.map (fun r => c :: r) (renderChars vars fuel rest)

/-- `renderTemplate` from `templateRenderer.ts`, with the thrown
missing-variable exception materialised as `Except.error`. -/
def renderTemplate (template : String) (vars : List (String × Value)) :
    Except TemplateError String :=
  Except.map String.mk (renderChars vars (template.length + 1) template.data)

/-- The placeholder occurrences the `renderTemplate` regex matches, in scan
order, as raw (untrimmed) names.  Same scan structure as `renderChars`. -/
def templatePlaceholders : Nat → List Char → List String
  | 0, _ => []
  | _ + 1, [] => []
  | fuel + 1, c :: rest =>
    if c = '$' && rest.head? == some '{' then
      let rest2 := rest.tail
      let content := rest2.takeWhile (fun x => x ≠ '}')
      let after := rest2.dropWhile (fun x => x ≠ '}')
      if content.isEmpty || after.isEmpty then
        templatePlaceholders fuel rest
      else
        String.mk content :: templatePlaceholders fuel after.tail
    else
      templatePlaceholders fuel rest

/-- The placeholders of a template string. -/
def templatePlaceholdersOf (template : String) : List String :=
  templatePlaceholders (template.length + 1) template.data

/-! ## Script locator (`scriptLoader.ts`) -/

/-- POSIX `join` from `@std/path`, for the simple relative segments used
here. -/
def joinPath (a b : String) : String := a ++ "/" ++ b

/-- `findScriptInPlugin` from `scriptLoader.ts`: the file-strategy locator.
The filesystem is modelled by the list of paths that exist as files; the
source probes, in order, `<scripts>/<name>.scpt`, `<scripts>/<name>.applescript`,
`<scripts>/<name>/<name>.scpt`, `<scripts>/<name>/<name>.applescript` and
returns the first existing candidate. -/
def findScriptInPlugin (fileExists : List String) (pluginDir scriptName : String) :
    Option String :=
  let scriptsDir := joinPath pluginDir "scripts"
  let candidates :=
    [joinPath scriptsDir (scriptName ++ ".scpt"),
     joinPath scriptsDir (scriptName ++ ".applescript"),
     joinPath (joinPath scriptsDir scriptName) (scriptName ++ ".scpt"),
     joinPath (joinPath scriptsDir scriptName) (scriptName ++ ".applescript")]
  candidates.find? (fun c => fileExists.contains c)

/-- The `type` tag of an inlined script entry. -/
inductive ScriptType where
  | text
  | binary
deriving DecidableEq, Repr

/-- `InlinedScript` from `scriptLoader.ts`. -/
structure InlinedScript where
  type : ScriptType
  content : String
deriving DecidableEq, Repr

/-- Lookup in the inlined-scripts map (insertion-ordered, as
`Object.entries` iterates it). -/
def lookupInlined (inlinedScripts : List (String × InlinedScript)) (key : String) :
    Option InlinedScript :=
  (inlinedScripts.find? (fun p => p.1 = key)).map (fun p => p.2)

/-- The lookup portion of `executeFromInlinedScripts` from `scriptLoader.ts`:
exact name first; then, when the name has no dot, `<name>.applescript` before
`<name>.scpt`; then a subdirectory scan accepting keys ending in `/<name>`,
`/<name>.applescript` or `/<name>.scpt`.  Returns the resolved key together
with the entry. -/
def findInlinedScript (inlinedScripts : List (String × InlinedScript))
    (scriptName : String) : Option (String × InlinedScript) :=
  match lookupInlined inlinedScripts scriptName with
  | some s => some (scriptName, s)
  | none =>
    let extMatch :=
      if scriptName.data.contains '.' then none
      else
        match lookupInlined inlinedScripts (scriptName ++ ".applescript") with
        | some s => some (scriptName ++ ".applescript", s)
        | none =>
          match lookupInlined inlinedScripts (scriptName ++ ".scpt") with
          | some s => some (scriptName ++ ".scpt", s)
          | none => none
    match extMatch with
    | some r => some r
    | none =>
      inlinedScripts.find? (fun kv =>
        strEndsWith kv.1 ("/" ++ scriptName) ||
        strEndsWith kv.1 ("/" ++ scriptName ++ ".applescript") ||
        strEndsWith kv.1 ("/" ++ scriptName ++ ".scpt"))

/-! ## Process executor and compiler pipeline (`scriptRunner.ts`) -/

/-- What the spawned `osascript` process did: normal completion with exit
code and streams, abort by the timeout controller, or an OS-level spawn
failure (the thrown error's message and stack). -/
inductive ProcessOutcome where
  | completed (code : Int) (stdout stderr : String)
  | timedOut
  | spawnFailed (message : String) (stack : Option String)
deriving DecidableEq, Repr

/-- `ScriptRunOptions` from `scriptRunner.ts` (logger omitted: it only
emits diagnostics). -/
structure ScriptRunOptions where
  script : String
  args : List String
  timeout : Option Nat
  inline : Bool
deriving DecidableEq, Repr

/-- `runAppleScript` from `scriptRunner.ts`, as a function of the process
outcome.  `executionTime` stands for the measured elapsed milliseconds. -/
def runAppleScript (options : ScriptRunOptions) (envDefault envMax : Option Nat)
    (executionTime : Nat) (outcome : ProcessOutcome) : AppleScriptResult :=
  let timeout := validateTimeout options.timeout envDefault envMax
  let scriptPath : Option String := if options.inline then none else some options.script
  match outcome with
  | .completed code stdout stderr =>
    let stdoutText := String.mk (trimChars stdout.data)
    let stderrText := String.mk (trimChars stderr.data)
    if code = 0 then
      createSuccessResult stdoutText executionTime scriptPath (some timeout)
    else
      createErrorResult (parseAppleScriptError stderrText (some code))
        (extractErrorMessage stderrText) executionTime scriptPath (some timeout)
        (some ("ERR_SCRIPT_" ++ toString code)) (some stderrText)
  | .timedOut =>
    createErrorResult .timeout
      ("Script execution timed out after " ++ toString timeout ++ "ms")
      executionTime scriptPath (some timeout) (some "ERR_TIMEOUT") none
  | .spawnFailed message stack =>
    createErrorResult .system_error message executionTime scriptPath (some timeout)
      (some "ERR_SYSTEM") stack

/-- `DebugConfig` from `scriptRunner.ts`. -/
structure DebugConfig where
  enabled : Bool
  saveAll : Bool
  debugDir : String
  contextLines : Nat
deriving DecidableEq, Repr

/-- `saveDebugScript` from `scriptRunner.ts`, as a function of whether the
two artifact writes succeed (`writeOk`); every I/O failure is caught inside
the source function and surfaces as `undefined`, i.e. `none`.  `timestamp`
stands for the ISO timestamp with `:` and `.` replaced by `-`. -/
def saveDebugScript (_scriptContent : String) (result : AppleScriptResult)
    (config : DebugConfig) (timestamp : String) (writeOk : Bool) : Option String :=
  if config.enabled = false then none
  else if config.saveAll = false && result.success then none
  else if writeOk then
    some (config.debugDir ++ "/" ++ timestamp ++ "_" ++
      (if result.success then "success" else "failed") ++ ".applescript")
  else none

/-- Left-pad a string to four characters with spaces
(`lineNum.padStart(4, ' ')`). -/
def padStart4 (s : String) : String :=
  String.mk (List.replicate (4 - s.data.length) ' ') ++ s

/-- `getErrorContext` from `scriptRunner.ts`: the windowed excerpt of the
rendered source around `errorLine`, each line prefixed by a marker (`>>>` on
the offending line), a four-character line number and a `|`.  Nat subtraction
reproduces the source's `Math.max(0, errorLine - contextLines - 1)`. -/
def getErrorContext (scriptContent : String) (errorLine : Nat) (contextLines : Nat) :
    String :=
  let lines := splitLines scriptContent
  let startLine := errorLine - contextLines - 1
  let endLine := min lines.length (errorLine + contextLines)
  let renderedLines := (List.range' startLine (endLine - startLine)).map (fun i =>
    let lineNum := padStart4 (toString (i + 1))
    let marker := if i + 1 = errorLine then " >>>" else "    "
    marker ++ " " ++ lineNum ++ " | " ++ String.mk ((lines.get? i).getD []))
  String.intercalate "\n" renderedLines

/-- The scan of `stderrText.match(/:([0-9]+):/)` plus `parseInt`: the first
colon followed by one or more digits followed by a colon, read as a number. -/
def extractLineNumber : List Char → Option Nat
  | [] => none
  | ':' :: rest =>
    let ds := rest.takeWhile Char.isDigit
    let r2 := rest.dropWhile Char.isDigit
    match ds, r2 with
    | _ :: _, ':' :: _ => some (digitsToNat ds)
    | _, _ => extractLineNumber rest
  | _ :: rest => extractLineNumber rest

/-- What the compile-then-run pipeline's external steps did: spawn failure,
compiler exit with nonzero code (carrying its stderr), or successful
compilation followed by a run outcome. -/
inductive CompileRunOutcome where
  | spawnFailed (message : String) (stack : Option String)
  | compileFailed (compileStderr : String)
  | compiledThen (run : ProcessOutcome)
deriving DecidableEq, Repr

/-- The debug-file annotation applied on the compile-failure path: when a
debug file was saved and the result has an error, append the path note to the
error's `details` (a JS template literal renders an absent field as
`undefined`). -/
def appendDebugCompile (result : AppleScriptResult) (debugFile : Option String) :
    AppleScriptResult :=
  match debugFile with
  | none => result
  | some df =>
    match result.error with
    | none => result
    | some e =>
      { result with
        error := some { e with
          details := some ((match e.details with | some d => d | none => "undefined") ++
            "\n\nDebug script saved to: " ++ df) } }

/-- The debug-file annotation applied after a run: only for a failed result
with an error is the path note appended (`result.error.details || ''`). -/
def appendDebugRun (result : AppleScriptResult) (debugFile : Option String) :
    AppleScriptResult :=
  match debugFile with
  | none => result
  | some df =>
    if result.success then result
    else
      match result.error with
      | none => result
      | some e =>
        { result with
          error := some { e with
            details := some (e.details.getD "" ++ "\n\nDebug script saved to: " ++ df) } }

/-- The `details` value built on the compile-failure path of `compileAndRun`:
the trimmed compiler stderr, plus a spliced source excerpt when a line number
was extracted (truthy, hence nonzero) and the context-line configuration is
positive. -/
def compileFailDetails (scriptSource stderrText : String) (contextLines : Nat) : String :=
  match extractLineNumber stderrText.data with
  | some errorLine =>
    if errorLine ≠ 0 && contextLines > 0 then
      stderrText ++ "\n\nScript context:\n" ++
        getErrorContext scriptSource errorLine contextLines
    else stderrText
  | none => stderrText

/-- `compileAndRun` from `scriptRunner.ts`, as a function of the pipeline
outcome.  `tempFile` stands for the temporary source path; the compiled
artifact is `tempFile ++ ".scpt"` as in the source.  Temp-file cleanup has no
observable effect on the returned result and is omitted. -/
def compileAndRun (scriptSource : String) (timeout : Option Nat)
    (envDefault envMax : Option Nat) (debugConfig : DebugConfig)
    (executionTime : Nat) (timestamp : String) (writeOk : Bool)
    (tempFile : String) (outcome : CompileRunOutcome) : AppleScriptResult :=
  let validatedTimeout := validateTimeout timeout envDefault envMax
  match outcome with
  | .spawnFailed message stack =>
    createErrorResult .system_error message executionTime none (some validatedTimeout)
      (some "ERR_SYSTEM") stack
  | .compileFailed compileStderr =>
    let stderrText := String.mk (trimChars compileStderr.data)
    let result := createErrorResult .script_error
      ("Compilation failed: " ++ extractErrorMessage stderrText)
      executionTime none (some validatedTimeout) (some "ERR_COMPILE")
      (some (compileFailDetails scriptSource stderrText debugConfig.contextLines))
    appendDebugCompile result
      (saveDebugScript scriptSource result debugConfig timestamp writeOk)
  | .compiledThen run =>
    let result := runAppleScript
      { script := tempFile ++ ".scpt", args := [], timeout := some validatedTimeout,
        inline := false }
      envDefault envMax executionTime run
    appendDebugRun result
      (saveDebugScript scriptSource result debugConfig timestamp writeOk)

/-! ## Template execution pipeline (`executeScript` in `scriptLoader.ts`) -/

/-- The template branch of `executeScript`: render first and only then hand
the rendered source to the compile-and-run step, here abstracted as
`runner`.  The thrown missing-variable error propagates as `Except.error`
without the runner (and hence the error classifier) ever being invoked. -/
def executeTemplateScript (template : String) (vars : List (String × Value))
    (runner : String → AppleScriptResult) : Except TemplateError AppleScriptResult :=
  match renderTemplate template vars with
  | .error e => .error e
  | .ok rendered => .ok (runner rendered)

/-! ## Debug sweep (`cleanupDebugScripts.ts`) -/

/-- A file the sweep's directory walk visits: path, modification time
(milliseconds since epoch, as `Date` comparison uses) and size in bytes. -/
structure DebugFileEntry where
  path : String
  mtime : Int
  size : Nat
deriving DecidableEq, Repr

/-- `CleanupResult` from `cleanupDebugScripts.ts`. -/
structure CleanupResult where
  found : Nat
  deleted : Nat
  bytesFreed : Nat
  deletedFiles : List String
deriving DecidableEq, Repr

/-- The walk loop of `cleanupDebugFiles`: every file is counted as found;
files with `mtime < cutoff` are deleted (when `execute`) or merely tallied
(dry run).  Returns the result and the directory contents afterwards. -/
def cleanupWalk : List DebugFileEntry → Int → Bool → CleanupResult × List DebugFileEntry
  | [], _, _ => ({ found := 0, deleted := 0, bytesFreed := 0, deletedFiles := [] }, [])
  | f :: rest, cutoff, execute =>
    let (res, remaining) := cleanupWalk rest cutoff execute
    if f.mtime < cutoff then
      if execute then
        ({ found := res.found + 1, deleted := res.deleted + 1,
           bytesFreed := f.size + res.bytesFreed, deletedFiles := f.path :: res.deletedFiles },
         remaining)
      else
        ({ found := res.found + 1, deleted := res.deleted + 1,
           bytesFreed := f.size + res.bytesFreed, deletedFiles := f.path :: res.deletedFiles },
         f :: remaining)
    else
      ({ res with found := res.found + 1 }, f :: remaining)

/-- Milliseconds per day. -/
def msPerDay : Int := 86400000

/-- `cleanupDebugFiles` from `cleanupDebugScripts.ts`: the retention cutoff is
`now` minus `maxAgeDays` days (the source's calendar `setDate` arithmetic, in
milliseconds), after which the walk runs. -/
def cleanupDebugFiles (files : List DebugFileEntry) (now : Int) (maxAgeDays : Int)
    (execute : Bool) : CleanupResult × List DebugFileEntry :=
  cleanupWalk files (now - maxAgeDays * msPerDay) execute

/-! ## Interface parser, query projection (`sdefParser.ts`) -/

/-- An XML element of the interface-description document: tag name,
attributes in document order, and child elements. -/
inductive SdefElement where
  | mk (tag : String) (attributes : List (String × String)) (children : List SdefElement)

/-- The element's tag name. -/
def SdefElement.tag : SdefElement → String
  | .mk t _ _ => t

/-- The element's attribute list. -/
def SdefElement.attributes : SdefElement → List (String × String)
  | .mk _ a _ => a

/-- The element's child elements. -/
def SdefElement.children : SdefElement → List SdefElement
  | .mk _ _ c => c

/-- DOM `getAttribute`: `none` models `null` for an absent attribute. -/
def getAttribute (el : SdefElement) (name : String) : Option String :=
  (el.attributes.find? (fun p => p.1 = name)).map (fun p => p.2)

mutual

/-- All elements of the subtree rooted at an element, in document order
(the target set of a document-wide `getElementsByTagName`). -/
def allElements : SdefElement → List SdefElement
  | .mk t a c => .mk t a c :: allElementsList c

/-- All elements of a forest, in document order. -/
def allElementsList : List SdefElement → List SdefElement
  | [] => []
  | e :: es => allElements e ++ allElementsList es

end

/-- `doc.getElementsByTagName(tag)` over the whole document. -/
def getElementsByTagName (doc : SdefElement) (tag : String) : List SdefElement :=
  (allElements doc).filter (fun e => e.tag = tag)

/-- `getDirectChildren` from `sdefParser.ts`: the element children with the
given tag name. -/
def getDirectChildren (el : SdefElement) (tag : String) : List SdefElement :=
  el.children.filter (fun c => c.tag = tag)

/-- A property entry of a queried class (`name`/`type`/`description` straight
from `getAttribute`, `access` defaulted to `read-write` when absent or empty,
as `|| 'read-write'` does). -/
structure SdefPropertyData where
  name : Option String
  type : Option String
  description : Option String
  access : String
deriving DecidableEq, Repr

/-- An element entry of a queried class. -/
structure SdefElementData where
  type : Option String
  access : Option String
deriving DecidableEq, Repr

/-- The direct-parameter entry of a queried command. -/
structure SdefDirectParameterData where
  type : Option String
  description : Option String
deriving DecidableEq, Repr

/-- A parameter entry of a queried command. -/
structure SdefParameterData where
  name : Option String
  type : Option String
  description : Option String
  optional : Bool
deriving DecidableEq, Repr

/-- The result entry of a queried command. -/
structure SdefResultData where
  type : Option String
  description : Option String
deriving DecidableEq, Repr

/-- An enumerator entry of a queried enumeration. -/
structure SdefEnumeratorData where
  name : Option String
  code : Option String
  description : Option String
deriving DecidableEq, Repr

/-- The type-specific detail block of a query item. -/
inductive SdefQueryDetail where
  | classDetail (properties : List SdefPropertyData) (elements : List SdefElementData)
  | commandDetail (directParameter : Option SdefDirectParameterData)
      (parameters : List SdefParameterData) (result : Option SdefResultData)
  | enumerationDetail (enumerators : List SdefEnumeratorData)
  | otherDetail
deriving DecidableEq, Repr

/-- One entry of the query projection's `items` array: a full-detail item for
a match, or an explicit invalid-format / not-found error entry. -/
inductive SdefQueryItem where
  | invalidFormat (query : String)
  | notFound (query type name : String)
  | found (query type name : String) (attributes : List (String × String))
      (detail : SdefQueryDetail)
deriving DecidableEq, Repr

/-- The `query` field every item carries. -/
def SdefQueryItem.queryOf : SdefQueryItem → String
  | .invalidFormat q => q
  | .notFound q _ _ => q
  | .found q _ _ _ _ => q

/-- The destructuring `const [type, name] = query.split(':')` plus the
falsy guard `!type || !name`: `none` when either piece is absent or empty. -/
def parseQueryToken (query : String) : Option (String × String) :=
  match splitOnChar ':' query.data with
  | t :: n :: _ =>
    if t.isEmpty || n.isEmpty then none else some (String.mk t, String.mk n)
  | _ => none

/-- The `access` attribute of a property with the source's
`|| 'read-write'` fallback (absent and empty are both falsy). -/
def propertyAccess (el : SdefElement) : String :=
  match getAttribute el "access" with
  | some s => if s.isEmpty then "read-write" else s
  | none => "read-write"

/-- The type-specific extraction of `parseSdefQuery` for one matched element. -/
def buildQueryDetail (type : String) (element : SdefElement) : SdefQueryDetail :=
  if type = "class" then
    .classDetail
      ((getDirectChildren element "property").map (fun prop =>
        { name := getAttribute prop "name", type := getAttribute prop "type",
          description := getAttribute prop "description", access := propertyAccess prop }))
      ((getDirectChildren element "element").map (fun elem =>
        { type := getAttribute elem "type", access := getAttribute elem "access" }))
  else if type = "command" then
    .commandDetail
      ((getDirectChildren element "direct-parameter").head?.map (fun dp =>
        { type := getAttribute dp "type", description := getAttribute dp "description" }))
      ((getDirectChildren element "parameter").map (fun param =>
        { name := getAttribute param "name", type := getAttribute param "type",
          description := getAttribute param "description",
          optional := getAttribute param "optional" == some "yes" }))
      ((getDirectChildren element "result").head?.map (fun r =>
        { type := getAttribute r "type", description := getAttribute r "description" }))
  else if type = "enumeration" then
    .enumerationDetail
      ((getDirectChildren element "enumerator").map (fun e =>
        { name := getAttribute e "name", code := getAttribute e "code",
          description := getAttribute e "description" }))
  else
    .otherDetail

/-- The elements a `"type:name"` token matches: tag name equal to `type`,
`name` attribute equal to `name`. -/
def matchingElements (doc : SdefElement) (type name : String) : List SdefElement :=
  (getElementsByTagName doc type).filter (fun el => getAttribute el "name" = some name)

/-- The entries `parseSdefQuery` pushes for one query token. -/
def processQuery (doc : SdefElement) (query : String) : List SdefQueryItem :=
  match parseQueryToken query with
  | none => [.invalidFormat query]
  | some (type, name) =>
    match matchingElements doc type name with
    | [] => [.notFound query type name]
    | els@(_ :: _) =>
      els.map (fun el => .found query type name el.attributes (buildQueryDetail type el))

/-- The structured result of `parseSdefQuery`. -/
structure SdefQueryResult where
  application : String
  items : List SdefQueryItem
deriving DecidableEq, Repr

/-- `parseSdefQuery` from `sdefParser.ts` (on an already-parsed document:
the XML well-formedness check precedes this and is out of scope of the query
projection itself). -/
def parseSdefQuery (doc : SdefElement) (queries : List String)
    (applicationName : String) : SdefQueryResult :=
  { application := applicationName
    items := queries.flatMap (processQuery doc) }

/-! ## Sample data for concrete scenarios -/

/-- An eight-line rendered source used to exercise the compile-failure
context splicing. -/
def sampleRenderedSource : String :=
  "line one\nline two\nline three\nline four\nline five\nline six\nline seven\nline eight"

/-- A debug configuration with the recorder disabled and two context lines,
as in the claim's scenario. -/
def sampleDebugConfig : DebugConfig :=
  { enabled := false, saveAll := false, debugDir := "./debug/applescript", contextLines := 2 }

/-- A stand-in compile-and-run step that always succeeds. -/
def okRunner : String → AppleScriptResult := fun _ => createSuccessResult "ok" 0 none none

/-- A stand-in compile-and-run step that runs the classifier on a failing
process outcome, to exhibit that a template error bypasses classification. -/
def classifyingRunner : String → AppleScriptResult := fun rendered =>
  runAppleScript { script := rendered, args := [], timeout := none, inline := true }
    none none 0 (.completed 1 "" "syntax error")

/-- A property child for the sample interface document. -/
def samplePropertyElement : SdefElement :=
  .mk "property" [("name", "name"), ("type", "text")] []

/-- The `class` element named `document` of the sample interface document. -/
def sampleClassElement : SdefElement :=
  .mk "class" [("name", "document"), ("description", "A document.")]
    [samplePropertyElement]

/-- A small well-formed interface document: one suite holding one class. -/
def sampleSdefDoc : SdefElement :=
  .mk "dictionary" [("title", "TestApp Terminology")]
    [.mk "suite" [("name", "Standard Suite")] [sampleClassElement]]

/-! ## Theorems -/

/-- C1 (counterexample): the spec's formula `min(requested ?? default, max)`
fails at a requested timeout of `0`: the source's `timeout || defaultTimeout`
treats `0` as falsy, so `validateTimeout(0)` is the clamped default (30000
under default configuration) rather than `min(0, max) = 0`. -/
theorem validateTimeout_zero_counterexample :
    validateTimeout (some 0) none none = 30000 ∧
    specTimeout (some 0) none none = 0 ∧
    (validateTimeout (some 0) none none == specTimeout (some 0) none none) = false := by
  decide

/-- C1 (amended): for every requested timeout other than `0`,
`validateTimeout(requested) = min(requested ?? configuredDefault,
configuredMax)`; a requested timeout of `0` is treated as unset and yields
`min(configuredDefault, configuredMax)`. -/
theorem validateTimeout_clamp_amended :
    ∀ (requested envDefault envMax : Option Nat),
      (requested ≠ some 0 →
        validateTimeout requested envDefault envMax =
          specTimeout requested envDefault envMax) ∧
      validateTimeout (some 0) envDefault envMax =
        min (getDefaultTimeout envDefault) (getMaxTimeout envMax) := by
  intro requested envDefault envMax
  constructor
  · intro h
    match requested with
    | none => rfl
    | some 0 => exact absurd rfl h
    | some (t + 1) => rfl
  · rfl

/-- C1 witness: the amended statement evaluated at a request of 600000 ms
under default configuration (clamped to the 300000 ms maximum). -/
theorem validateTimeout_clamp_amended_witness :
    validateTimeout (some 600000) none none = specTimeout (some 600000) none none ∧
    validateTimeout (some 600000) none none = 300000 :=
  ⟨(validateTimeout_clamp_amended (some 600000) none none).1 (by decide), by decide⟩

/-- C2: for every diagnostic string, `parseAppleScriptError` agrees with
first-match evaluation of the spec's ordered rule table (permission phrases
before timeout phrases before script-error phrases, default system_error)
over the lowercased text, and never returns `disabled`; a string containing
both "not authorized" and "syntax error" classifies as permission. -/
theorem parseAppleScriptError_ordered_first_match :
    (∀ (stderr : String) (code : Option Int),
      parseAppleScriptError stderr code = specClassify stderr ∧
      (parseAppleScriptError stderr code == ErrorType.disabled) = false) ∧
    parseAppleScriptError "Not authorized to send Apple events: syntax error" none =
      ErrorType.permission := by
  refine ⟨fun stderr code => ⟨?_, ?_⟩, by decide⟩
  · simp only [parseAppleScriptError, specClassify, classifyByRules, specClassifierRules,
      List.any_cons, List.any_nil, Bool.or_false, Bool.or_assoc]
  · simp only [parseAppleScriptError]
    split
    · decide
    · split
      · decide
      · split <;> decide

/-- C3 (counterexample): with both extensions present at the top level, the
file-strategy locator returns the compiled `.scpt` candidate, not the
`.applescript` source candidate the claim predicts; the inline strategy, by
contrast, probes `.applescript` first, so the two probing orders differ. -/
theorem findScriptInPlugin_ext_order_counterexample :
    findScriptInPlugin ["plug/scripts/foo.scpt", "plug/scripts/foo.applescript"]
        "plug" "foo" = some "plug/scripts/foo.scpt" ∧
    (findScriptInPlugin ["plug/scripts/foo.scpt", "plug/scripts/foo.applescript"]
        "plug" "foo" == some "plug/scripts/foo.applescript") = false ∧
    findInlinedScript
        [("foo.applescript", ⟨ScriptType.text, "A"⟩), ("foo.scpt", ⟨ScriptType.binary, "B"⟩)]
        "foo" = some ("foo.applescript", ⟨ScriptType.text, "A"⟩) := by
  refine ⟨rfl, by decide, rfl⟩

/-- C3 (amended): the file-strategy locator probes candidate paths with the
compiled extension (`.scpt`) before the source extension (`.applescript`),
first at the top level of the scripts directory and then one subdirectory
deep, and returns the first candidate that exists as a file; this extension
order is the reverse of the inline strategy's. -/
theorem findScriptInPlugin_probe_order_amended :
    ∀ (fileExists : List String) (pluginDir scriptName : String),
      (joinPath (joinPath pluginDir "scripts") (scriptName ++ ".scpt") ∈ fileExists →
        findScriptInPlugin fileExists pluginDir scriptName =
          some (joinPath (joinPath pluginDir "scripts") (scriptName ++ ".scpt"))) ∧
      (joinPath (joinPath pluginDir "scripts") (scriptName ++ ".scpt") ∉ fileExists →
        joinPath (joinPath pluginDir "scripts") (scriptName ++ ".applescript") ∈ fileExists →
        findScriptInPlugin fileExists pluginDir scriptName =
          some (joinPath (joinPath pluginDir "scripts") (scriptName ++ ".applescript"))) ∧
      (joinPath (joinPath pluginDir "scripts") (scriptName ++ ".scpt") ∉ fileExists →
        joinPath (joinPath pluginDir "scripts") (scriptName ++ ".applescript") ∉ fileExists →
        joinPath (joinPath (joinPath pluginDir "scripts") scriptName)
          (scriptName ++ ".scpt") ∈ fileExists →
        findScriptInPlugin fileExists pluginDir scriptName =
          some (joinPath (joinPath (joinPath pluginDir "scripts") scriptName)
            (scriptName ++ ".scpt"))) ∧
      (joinPath (joinPath pluginDir "scripts") (scriptName ++ ".scpt") ∉ fileExists →
        joinPath (joinPath pluginDir "scripts") (scriptName ++ ".applescript") ∉ fileExists →
        joinPath (joinPath (joinPath pluginDir "scripts") scriptName)
          (scriptName ++ ".scpt") ∉ fileExists →
        joinPath (joinPath (joinPath pluginDir "scripts") scriptName)
          (scriptName ++ ".applescript") ∈ fileExists →
        findScriptInPlugin fileExists pluginDir scriptName =
          some (joinPath (joinPath (joinPath pluginDir "scripts") scriptName)
            (scriptName ++ ".applescript"))) ∧
      (joinPath (joinPath pluginDir "scripts") (scriptName ++ ".scpt") ∉ fileExists →
        joinPath (joinPath pluginDir "scripts") (scriptName ++ ".applescript") ∉ fileExists →
        joinPath (joinPath (joinPath pluginDir "scripts") scriptName)
          (scriptName ++ ".scpt") ∉ fileExists →
        joinPath (joinPath (joinPath pluginDir "scripts") scriptName)
          (scriptName ++ ".applescript") ∉ fileExists →
        findScriptInPlugin fileExists pluginDir scriptName = none) := by
  intro fileExists pluginDir scriptName
  refine ⟨fun h1 => ?_, fun h1 h2 => ?_, fun h1 h2 h3 => ?_, fun h1 h2 h3 h4 => ?_,
    fun h1 h2 h3 h4 => ?_⟩ <;>
    simp [findScriptInPlugin, List.find?, h1, *]

/-- C3 witness: the second probe succeeds when only the top-level
`.applescript` candidate exists. -/
theorem findScriptInPlugin_probe_order_amended_witness :
    findScriptInPlugin ["p/scripts/n.applescript"] "p" "n" =
      some "p/scripts/n.applescript" :=
  (findScriptInPlugin_probe_order_amended ["p/scripts/n.applescript"] "p" "n").2.1
    (by decide) (by decide)

/-- C4 (counterexample): with stderr exactly `"5:1: syntax error: x"`, the
first `:<digits>:` match of the source's `/:([0-9]+):/` pattern is `:1:` (the
column field), so the error's details embed lines 1-3 of the rendered source
with line 1 marked; they do not embed lines 3-7 with line 5 marked, and line
5's text does not appear at all. -/
theorem compileFail_context_counterexample :
    extractLineNumber "5:1: syntax error: x".data = some 1 ∧
    compileFailDetails sampleRenderedSource "5:1: syntax error: x" 2 =
      "5:1: syntax error: x\n\nScript context:\n >>>    1 | line one\n        2 | line two\n        3 | line three" ∧
    (compileFailDetails sampleRenderedSource "5:1: syntax error: x" 2 ==
      "5:1: syntax error: x\n\nScript context:\n        3 | line three\n        4 | line four\n >>>    5 | line five\n        6 | line six\n        7 | line seven") = false ∧
    containsSub (compileFailDetails sampleRenderedSource "5:1: syntax error: x" 2)
      "line five" = false ∧
    (compileAndRun sampleRenderedSource none none none sampleDebugConfig 10 "ts" false
        "tmp" (.compileFailed "5:1: syntax error: x")).error.map (fun e => e.details) =
      some (some
        "5:1: syntax error: x\n\nScript context:\n >>>    1 | line one\n        2 | line two\n        3 | line three") := by
  refine ⟨rfl, rfl, by decide, by decide, rfl⟩

/-- C4 (amended): the line number is the first `:<digits>:` match of the
diagnostic; for the claim's bare stderr that is the column `1`, producing a
lines-1-3 excerpt with line 1 marked (previous theorem), and for a
path-prefixed diagnostic `"/tmp/script.applescript:5:1: ..."` it is `5`,
producing the lines-3-7 excerpt with line 5 marked, spliced into the error's
details. -/
theorem compileFail_context_amended :
    extractLineNumber "/tmp/script.applescript:5:1: syntax error: x".data = some 5 ∧
    compileFailDetails sampleRenderedSource
        "/tmp/script.applescript:5:1: syntax error: x" 2 =
      "/tmp/script.applescript:5:1: syntax error: x\n\nScript context:\n        3 | line three\n        4 | line four\n >>>    5 | line five\n        6 | line six\n        7 | line seven" ∧
    (compileAndRun sampleRenderedSource none none none sampleDebugConfig 10 "ts" false
        "tmp" (.compileFailed "/tmp/script.applescript:5:1: syntax error: x")).error.map
      (fun e => e.details) =
      some (some
        "/tmp/script.applescript:5:1: syntax error: x\n\nScript context:\n        3 | line three\n        4 | line four\n >>>    5 | line five\n        6 | line six\n        7 | line seven") := by
  refine ⟨rfl, rfl, rfl⟩

/-- Helper for the missing-variable claim: whenever the template scan
contains a placeholder whose trimmed name is absent from the context, the
render scan aborts with a missing-variable error. -/
theorem renderChars_missing (vars : List (String × Value)) :
    ∀ (fuel : Nat) (l : List Char),
      (∃ nm, nm ∈ templatePlaceholders fuel l ∧ lookupVar vars (trimString nm) = none) →
      ∃ nm', renderChars vars fuel l = .error (.missingVariable nm') := by
  intro fuel
  induction fuel with
  | zero =>
    intro l h
    obtain ⟨nm, hmem, _⟩ := h
    simp [templatePlaceholders] at hmem
  | succ fuel ih =>
    intro l h
    obtain ⟨nm, hmem, hlook⟩ := h
    match l with
    | [] => simp [templatePlaceholders] at hmem
    | c :: rest =>
      simp only [templatePlaceholders] at hmem
      simp only [renderChars]
      split at hmem
      · split at hmem
        · obtain ⟨nm', he⟩ := ih rest ⟨nm, hmem, hlook⟩
          exact ⟨nm', by simp_all [Except.map]⟩
        · rcases List.mem_cons.mp hmem with heq | htail
          · subst heq
            refine ⟨String.mk (List.takeWhile (fun x => x ≠ '}') rest.tail), ?_⟩
            simp_all
          · cases hl : lookupVar vars
              (trimString (String.mk (rest.tail.takeWhile fun x => x ≠ '}'))) with
            | none =>
              refine ⟨String.mk (List.takeWhile (fun x => x ≠ '}') rest.tail), ?_⟩
              simp_all
            | some v =>
              obtain ⟨nm', he⟩ := ih _ ⟨nm, htail, hlook⟩
              exact ⟨nm', by simp_all [Except.map]⟩
      · obtain ⟨nm', he⟩ := ih rest ⟨nm, hmem, hlook⟩
        exact ⟨nm', by simp_all [Except.map]⟩

/-- C5: for every template containing a matched placeholder whose (trimmed)
name has no key in the render context, the pipeline returns the distinct
missing-template-variable error; the outcome is identical for any two
compile-and-run steps, so no process is spawned and the error classifier is
never consulted (the error is a `TemplateError`, not a classified
`AppleScriptError`). -/
theorem renderTemplate_missing_variable :
    ∀ (template : String) (vars : List (String × Value))
      (runner₁ runner₂ : String → AppleScriptResult),
      (∃ nm, nm ∈ templatePlaceholdersOf template ∧
        lookupVar vars (trimString nm) = none) →
      ∃ nm', executeTemplateScript template vars runner₁ =
               .error (.missingVariable nm') ∧
             executeTemplateScript template vars runner₂ =
               .error (.missingVariable nm') := by
  intro template vars runner₁ runner₂ h
  obtain ⟨nm', he⟩ :=
    renderChars_missing vars (template.length + 1) template.data h
  refine ⟨nm', ?_, ?_⟩ <;>
    simp [executeTemplateScript, renderTemplate, he, Except.map]

/-- C5 witness: the spec's concrete scenario, an empty context against the
template `"${missing}"`, under both a succeeding and a classifying runner. -/
theorem renderTemplate_missing_variable_witness :
    executeTemplateScript "$\x7bmissing\x7d" [] okRunner =
      .error (.missingVariable "missing") ∧
    executeTemplateScript "$\x7bmissing\x7d" [] classifyingRunner =
      .error (.missingVariable "missing") := by
  have h := renderTemplate_missing_variable "$\x7bmissing\x7d" [] okRunner
    classifyingRunner ⟨"missing", by decide, rfl⟩
  exact ⟨rfl, rfl⟩

/-- The compile-path debug annotation changes at most the error's `details`
field: all other observable components are preserved. -/
theorem appendDebugCompile_fields (r : AppleScriptResult) (df : Option String) :
    (appendDebugCompile r df).success = r.success ∧
    (appendDebugCompile r df).result = r.result ∧
    (appendDebugCompile r df).metadata = r.metadata ∧
    (appendDebugCompile r df).error.map (fun e => e.type) = r.error.map (fun e => e.type) ∧
    (appendDebugCompile r df).error.map (fun e => e.message) =
      r.error.map (fun e => e.message) ∧
    (appendDebugCompile r df).error.map (fun e => e.code) = r.error.map (fun e => e.code) ∧
    (appendDebugCompile r df).error.map (fun e => e.hint) = r.error.map (fun e => e.hint) ∧
    (appendDebugCompile r df).error.isNone = r.error.isNone := by
  cases df with
  | none => simp [appendDebugCompile]
  | some d =>
    cases he : r.error with
    | none => simp [appendDebugCompile, he]
    | some e => simp [appendDebugCompile, he]

/-- The run-path debug annotation changes at most the error's `details`
field: all other observable components are preserved. -/
theorem appendDebugRun_fields (r : AppleScriptResult) (df : Option String) :
    (appendDebugRun r df).success = r.success ∧
    (appendDebugRun r df).result = r.result ∧
    (appendDebugRun r df).metadata = r.metadata ∧
    (appendDebugRun r df).error.map (fun e => e.type) = r.error.map (fun e => e.type) ∧
    (appendDebugRun r df).error.map (fun e => e.message) =
      r.error.map (fun e => e.message) ∧
    (appendDebugRun r df).error.map (fun e => e.code) = r.error.map (fun e => e.code) ∧
    (appendDebugRun r df).error.map (fun e => e.hint) = r.error.map (fun e => e.hint) ∧
    (appendDebugRun r df).error.isNone = r.error.isNone := by
  cases df with
  | none => simp [appendDebugRun]
  | some d =>
    by_cases hs : r.success = true
    · simp [appendDebugRun, hs]
    · cases he : r.error with
      | none => simp [appendDebugRun, hs, he]
      | some e => simp [appendDebugRun, hs, he]

/-- `createSuccessResult` satisfies the result invariant. -/
theorem resultInvariant_createSuccess (result : String) (executionTime : Nat)
    (scriptPath : Option String) (timeoutUsed : Option Nat) :
    resultInvariant (createSuccessResult result executionTime scriptPath timeoutUsed) =
      true := by
  simp [resultInvariant, createSuccessResult]

/-- `createErrorResult` satisfies the result invariant. -/
theorem resultInvariant_createError (errorType : ErrorType) (message : String)
    (executionTime : Nat) (scriptPath : Option String) (timeoutUsed : Option Nat)
    (code : Option String) (details : Option String) :
    resultInvariant (createErrorResult errorType message executionTime scriptPath
      timeoutUsed code details) = true := by
  simp [resultInvariant, createErrorResult]

/-- Every `runAppleScript` result satisfies the result invariant. -/
theorem resultInvariant_run (options : ScriptRunOptions) (envDefault envMax : Option Nat)
    (executionTime : Nat) (outcome : ProcessOutcome) :
    resultInvariant (runAppleScript options envDefault envMax executionTime outcome) =
      true := by
  cases outcome with
  | completed code stdout stderr =>
    by_cases h : code = 0 <;>
      simp [runAppleScript, h, resultInvariant_createSuccess, resultInvariant_createError]
  | timedOut => simp [runAppleScript, resultInvariant_createError]
  | spawnFailed message stack => simp [runAppleScript, resultInvariant_createError]

/-- The debug annotations preserve the result invariant. -/
theorem resultInvariant_preserved_append (r : AppleScriptResult) :
    resultInvariant r = true →
    (∀ df, resultInvariant (appendDebugCompile r df) = true) ∧
    (∀ df, resultInvariant (appendDebugRun r df) = true) := by
  intro h
  constructor <;> intro df
  · obtain ⟨h1, h2, _, _, _, _, _, h8⟩ := appendDebugCompile_fields r df
    simp only [resultInvariant] at h ⊢
    rw [h1, h2, h8]
    exact h
  · obtain ⟨h1, h2, _, _, _, _, _, h8⟩ := appendDebugRun_fields r df
    simp only [resultInvariant] at h ⊢
    rw [h1, h2, h8]
    exact h

/-- C6: every `AppleScriptResult` the pipeline produces - by
`createSuccessResult`, by `createErrorResult`, and hence by `runAppleScript`
and `compileAndRun` on every path - has `success` true exactly when `error`
is absent, and never carries `result` and `error` together. -/
theorem execution_result_invariant :
    (∀ (result : String) (executionTime : Nat) (scriptPath : Option String)
       (timeoutUsed : Option Nat),
       resultInvariant (createSuccessResult result executionTime scriptPath timeoutUsed) =
         true) ∧
    (∀ (errorType : ErrorType) (message : String) (executionTime : Nat)
       (scriptPath : Option String) (timeoutUsed : Option Nat) (code : Option String)
       (details : Option String),
       resultInvariant (createErrorResult errorType message executionTime scriptPath
         timeoutUsed code details) = true) ∧
    (∀ (options : ScriptRunOptions) (envDefault envMax : Option Nat)
       (executionTime : Nat) (outcome : ProcessOutcome),
       resultInvariant (runAppleScript options envDefault envMax executionTime outcome) =
         true) ∧
    (∀ (scriptSource : String) (timeout : Option Nat) (envDefault envMax : Option Nat)
       (debugConfig : DebugConfig) (executionTime : Nat) (timestamp : String)
       (writeOk : Bool) (tempFile : String) (outcome : CompileRunOutcome),
       resultInvariant (compileAndRun scriptSource timeout envDefault envMax debugConfig
         executionTime timestamp writeOk tempFile outcome) = true) := by
  refine ⟨resultInvariant_createSuccess, resultInvariant_createError, resultInvariant_run,
    ?_⟩
  intro scriptSource timeout envDefault envMax debugConfig executionTime timestamp writeOk
    tempFile outcome
  cases outcome with
  | spawnFailed message stack => simp [compileAndRun, resultInvariant_createError]
  | compileFailed compileStderr =>
    exact ((resultInvariant_preserved_append _ (resultInvariant_createError _ _ _ _ _ _ _)).1 _)
  | compiledThen run =>
    exact ((resultInvariant_preserved_append _ (resultInvariant_run _ _ _ _ _)).2 _)

/-- C7 (counterexample): a string-keyed record appearing as a list element is
converted to an escaped `JSON.stringify` string literal, not to the bracketed
`key:value` record literal the claim predicts. -/
theorem toAppleScriptList_record_counterexample :
    toAppleScriptList [Value.record [("name", Value.str "test")]] =
      "\x7b\"\x7b\\\"name\\\":\\\"test\\\"\x7d\"\x7d" ∧
    (toAppleScriptList [Value.record [("name", Value.str "test")]] ==
      "\x7b" ++ toAppleScriptRecord [("name", Value.str "test")] ++ "\x7d") = false ∧
    "\x7b" ++ toAppleScriptRecord [("name", Value.str "test")] ++ "\x7d" =
      "\x7b\x7bname:\"test\"\x7d\x7d" := by
  refine ⟨rfl, by decide, rfl⟩

/-- C7 (amended): list rendering is a bracketed, comma-joined literal of
per-element conversions, but a record element converts to an escaped JSON
string; records convert to bracketed `key:value` literals only as record
field values and as direct template values. -/
theorem toAppleScriptList_conversion_amended :
    (∀ (items : List Value), listItemsToAS items = items.map listItemToAS) ∧
    (∀ (arr : List Value),
      toAppleScriptList arr = "\x7b" ++ joinCommaSp (arr.map listItemToAS) ++ "\x7d") ∧
    (∀ (fields : List (String × Value)),
      listItemToAS (Value.record fields) =
        escapeAppleScriptString (jsonStringify (Value.record fields))) ∧
    (∀ (fields : List (String × Value)),
      recordValueToAS (Value.record fields) = toAppleScriptRecord fields) ∧
    (∀ (fields : List (String × Value)),
      renderTemplateValue (Value.record fields) = toAppleScriptRecord fields) ∧
    toAppleScriptRecord [("name", Value.str "test")] = "\x7bname:\"test\"\x7d" ∧
    toAppleScriptList [Value.str "a", Value.num 1, Value.list [Value.num 2],
        Value.null, Value.bool true] =
      "\x7b\"a\", 1, \x7b2\x7d, missing value, true\x7d" := by
  have hmap : ∀ (items : List Value), listItemsToAS items = items.map listItemToAS := by
    intro items
    induction items with
    | nil => rfl
    | cons v vs ih => simp [listItemsToAS, ih]
  refine ⟨hmap, fun arr => ?_, fun fields => rfl, fun fields => rfl, fun fields => rfl,
    rfl, rfl⟩
  rw [toAppleScriptList, hmap]

/-- Helper: component-wise description of the dry-run sweep walk. -/
theorem cleanupWalk_dry_run (cutoff : Int) :
    ∀ (files : List DebugFileEntry),
      (cleanupWalk files cutoff false).2 = files ∧
      (cleanupWalk files cutoff false).1.found = files.length ∧
      (cleanupWalk files cutoff false).1.deleted =
        (files.filter (fun f => f.mtime < cutoff)).length ∧
      (cleanupWalk files cutoff false).1.bytesFreed =
        ((files.filter (fun f => f.mtime < cutoff)).map (fun f => f.size)).sum ∧
      (cleanupWalk files cutoff false).1.deletedFiles =
        (files.filter (fun f => f.mtime < cutoff)).map (fun f => f.path) := by
  intro files
  induction files with
  | nil => simp [cleanupWalk]
  | cons f rest ih =>
    obtain ⟨h2, hfound, hdel, hbytes, hpaths⟩ := ih
    by_cases hm : f.mtime < cutoff <;>
      simp [cleanupWalk, hm, h2, hfound, hdel, hbytes, hpaths, List.filter_cons]

/-- C9: in dry-run mode the sweep deletes nothing - the directory contents
are returned unchanged - while reporting the count and total byte size of the
files strictly older than the retention cutoff; in particular three files
aged 1, 8 and 30 days under a 7-day retention report 2 files and 500 bytes
with all three files remaining. -/
theorem cleanup_dry_run_reports_without_deleting :
    (∀ (files : List DebugFileEntry) (now maxAgeDays : Int),
      (cleanupDebugFiles files now maxAgeDays false).2 = files ∧
      (cleanupDebugFiles files now maxAgeDays false).1.found = files.length ∧
      (cleanupDebugFiles files now maxAgeDays false).1.deleted =
        (files.filter (fun f => f.mtime < now - maxAgeDays * msPerDay)).length ∧
      (cleanupDebugFiles files now maxAgeDays false).1.bytesFreed =
        ((files.filter (fun f => f.mtime < now - maxAgeDays * msPerDay)).map
          (fun f => f.size)).sum) ∧
    (cleanupDebugFiles
        [⟨"one-day-old", -1 * msPerDay, 100⟩, ⟨"eight-days-old", -8 * msPerDay, 200⟩,
         ⟨"thirty-days-old", -30 * msPerDay, 300⟩] 0 7 false).1.deleted = 2 ∧
    (cleanupDebugFiles
        [⟨"one-day-old", -1 * msPerDay, 100⟩, ⟨"eight-days-old", -8 * msPerDay, 200⟩,
         ⟨"thirty-days-old", -30 * msPerDay, 300⟩] 0 7 false).1.bytesFreed = 500 ∧
    (cleanupDebugFiles
        [⟨"one-day-old", -1 * msPerDay, 100⟩, ⟨"eight-days-old", -8 * msPerDay, 200⟩,
         ⟨"thirty-days-old", -30 * msPerDay, 300⟩] 0 7 false).2 =
      [⟨"one-day-old", -1 * msPerDay, 100⟩, ⟨"eight-days-old", -8 * msPerDay, 200⟩,
       ⟨"thirty-days-old", -30 * msPerDay, 300⟩] := by
  refine ⟨fun files now maxAgeDays => ?_, by decide, by decide, by decide⟩
  obtain ⟨h2, hfound, hdel, hbytes, _⟩ :=
    cleanupWalk_dry_run (now - maxAgeDays * msPerDay) files
  exact ⟨h2, hfound, hdel, hbytes⟩

/-- Helper: the recorder yields no debug file when disabled, when the write
fails, or when a success is not covered by save-all. -/
theorem saveDebugScript_declines (scriptContent : String) (result : AppleScriptResult)
    (config : DebugConfig) (timestamp : String) (writeOk : Bool) :
    saveDebugScript scriptContent result { config with enabled := false } timestamp
      writeOk = none ∧
    saveDebugScript scriptContent result config timestamp false = none ∧
    (result.success = true →
      saveDebugScript scriptContent result { config with saveAll := false } timestamp
        writeOk = none) := by
  refine ⟨rfl, ?_, ?_⟩
  · simp only [saveDebugScript]
    split
    · rfl
    · split
      · rfl
      · rfl
  · intro hs
    simp [saveDebugScript, hs]

/-- Helper: on the compile path, saving a debug file only appends the saved
path note to the error's `details`. -/
theorem appendDebugCompile_details (r : AppleScriptResult) (df : String) :
    (appendDebugCompile r (some df)).error.map (fun e => e.details) =
      r.error.map (fun e =>
        some (e.details.getD "undefined" ++ "\n\nDebug script saved to: " ++ df)) := by
  cases he : r.error with
  | none => simp [appendDebugCompile, he]
  | some e =>
    cases hd : e.details <;> simp [appendDebugCompile, he, hd]

/-- Helper: on the run path, a successful result is returned untouched and a
failed result only gains the saved-path note in its error's `details`. -/
theorem appendDebugRun_details (r : AppleScriptResult) (df : String) :
    (r.success = true → appendDebugRun r (some df) = r) ∧
    (r.success = false →
      (appendDebugRun r (some df)).error.map (fun e => e.details) =
        r.error.map (fun e =>
          some (e.details.getD "" ++ "\n\nDebug script saved to: " ++ df))) := by
  constructor
  · intro hs
    simp [appendDebugRun, hs]
  · intro hs
    cases he : r.error with
    | none => simp [appendDebugRun, hs, he]
    | some e => simp [appendDebugRun, hs, he]

/-- C10: the Debug Recorder never changes a `compileAndRun` result's success
flag, result, error kind, error message, error code or hint - compared with
the recorder disabled, the returned value is either identical or differs only
by a debug-file-path note appended to the error's `details` of a failed
execution; and the recorder yields no debug file at all when disabled or when
its write fails (its I/O errors are swallowed). -/
theorem debug_recorder_frame_effect :
    (∀ (scriptSource : String) (timeout envDefault envMax : Option Nat)
       (debugConfig : DebugConfig) (executionTime : Nat) (timestamp : String)
       (writeOk : Bool) (tempFile : String) (outcome : CompileRunOutcome),
      (compileAndRun scriptSource timeout envDefault envMax debugConfig executionTime
          timestamp writeOk tempFile outcome).success =
        (compileAndRun scriptSource timeout envDefault envMax
          { debugConfig with enabled := false } executionTime timestamp writeOk tempFile
          outcome).success ∧
      (compileAndRun scriptSource timeout envDefault envMax debugConfig executionTime
          timestamp writeOk tempFile outcome).result =
        (compileAndRun scriptSource timeout envDefault envMax
          { debugConfig with enabled := false } executionTime timestamp writeOk tempFile
          outcome).result ∧
      (compileAndRun scriptSource timeout envDefault envMax debugConfig executionTime
          timestamp writeOk tempFile outcome).error.map (fun e => e.type) =
        (compileAndRun scriptSource timeout envDefault envMax
          { debugConfig with enabled := false } executionTime timestamp writeOk tempFile
          outcome).error.map (fun e => e.type) ∧
      (compileAndRun scriptSource timeout envDefault envMax debugConfig executionTime
          timestamp writeOk tempFile outcome).error.map (fun e => e.message) =
        (compileAndRun scriptSource timeout envDefault envMax
          { debugConfig with enabled := false } executionTime timestamp writeOk tempFile
          outcome).error.map (fun e => e.message) ∧
      (compileAndRun scriptSource timeout envDefault envMax debugConfig executionTime
          timestamp writeOk tempFile outcome).error.map (fun e => e.code) =
        (compileAndRun scriptSource timeout envDefault envMax
          { debugConfig with enabled := false } executionTime timestamp writeOk tempFile
          outcome).error.map (fun e => e.code) ∧
      (compileAndRun scriptSource timeout envDefault envMax debugConfig executionTime
          timestamp writeOk tempFile outcome).error.map (fun e => e.hint) =
        (compileAndRun scriptSource timeout envDefault envMax
          { debugConfig with enabled := false } executionTime timestamp writeOk tempFile
          outcome).error.map (fun e => e.hint) ∧
      (compileAndRun scriptSource timeout envDefault envMax debugConfig executionTime
          timestamp writeOk tempFile outcome =
        compileAndRun scriptSource timeout envDefault envMax
          { debugConfig with enabled := false } executionTime timestamp writeOk tempFile
          outcome ∨
       ((compileAndRun scriptSource timeout envDefault envMax debugConfig executionTime
           timestamp writeOk tempFile outcome).success = false ∧
        ∃ df note,
          (compileAndRun scriptSource timeout envDefault envMax debugConfig executionTime
              timestamp writeOk tempFile outcome).error.map (fun e => e.details) =
            (compileAndRun scriptSource timeout envDefault envMax
              { debugConfig with enabled := false } executionTime timestamp writeOk
              tempFile outcome).error.map (fun e =>
                some (e.details.getD note ++ "\n\nDebug script saved to: " ++ df))))) ∧
    (∀ (scriptContent : String) (result : AppleScriptResult) (config : DebugConfig)
       (timestamp : String) (writeOk : Bool),
      saveDebugScript scriptContent result { config with enabled := false } timestamp
        writeOk = none ∧
      saveDebugScript scriptContent result config timestamp false = none) := by
  refine ⟨?_, fun sc r cfg ts w =>
    ⟨(saveDebugScript_declines sc r cfg ts w).1, (saveDebugScript_declines sc r cfg ts w).2.1⟩⟩
  intro scriptSource timeout envDefault envMax debugConfig executionTime timestamp
    writeOk tempFile outcome
  cases outcome with
  | spawnFailed message stack =>
    exact ⟨rfl, rfl, rfl, rfl, rfl, rfl, Or.inl rfl⟩
  | compileFailed compileStderr =>
    simp only [compileAndRun]
    cases hsd : saveDebugScript scriptSource
      (createErrorResult .script_error
        ("Compilation failed: " ++
          extractErrorMessage (String.mk (trimChars compileStderr.data)))
        executionTime none (some (validateTimeout timeout envDefault envMax))
        (some "ERR_COMPILE")
        (some (compileFailDetails scriptSource (String.mk (trimChars compileStderr.data))
          debugConfig.contextLines)))
      debugConfig timestamp writeOk with
    | none =>
      exact ⟨rfl, rfl, rfl, rfl, rfl, rfl, Or.inl rfl⟩
    | some df =>
      obtain ⟨f1, f2, _, f4, f5, f6, f7, _⟩ := appendDebugCompile_fields
        (createErrorResult .script_error
          ("Compilation failed: " ++
            extractErrorMessage (String.mk (trimChars compileStderr.data)))
          executionTime none (some (validateTimeout timeout envDefault envMax))
          (some "ERR_COMPILE")
          (some (compileFailDetails scriptSource
            (String.mk (trimChars compileStderr.data)) debugConfig.contextLines)))
        (some df)
      refine ⟨f1, f2, f4, f5, f6, f7, Or.inr ⟨f1, df, "undefined", ?_⟩⟩
      exact appendDebugCompile_details _ df
  | compiledThen run =>
    simp only [compileAndRun]
    cases hsd : saveDebugScript scriptSource
      (runAppleScript
        { script := tempFile ++ ".scpt", args := [],
          timeout := some (validateTimeout timeout envDefault envMax), inline := false }
        envDefault envMax executionTime run)
      debugConfig timestamp writeOk with
    | none =>
      exact ⟨rfl, rfl, rfl, rfl, rfl, rfl, Or.inl rfl⟩
    | some df =>
      set r := runAppleScript
        { script := tempFile ++ ".scpt", args := [],
          timeout := some (validateTimeout timeout envDefault envMax), inline := false }
        envDefault envMax executionTime run with hr
      by_cases hs : r.success = true
      · rw [(appendDebugRun_details r df).1 hs]
        exact ⟨rfl, rfl, rfl, rfl, rfl, rfl, Or.inl rfl⟩
      · obtain ⟨f1, f2, _, f4, f5, f6, f7, _⟩ := appendDebugRun_fields r (some df)
        have hs' : r.success = false := by
          cases hsv : r.success
          · rfl
          · exact absurd hsv hs
        refine ⟨f1, f2, f4, f5, f6, f7, Or.inr ⟨by rw [f1]; exact hs', df, "", ?_⟩⟩
        exact (appendDebugRun_details r df).2 hs'

/-- Helper: every entry a query token contributes appears in the projection's
`items`. -/
theorem processQuery_mem_items (doc : SdefElement) (queries : List String)
    (applicationName : String) (q : String) (it : SdefQueryItem)
    (hq : q ∈ queries) (hit : it ∈ processQuery doc q) :
    it ∈ (parseSdefQuery doc queries applicationName).items := by
  simp only [parseSdefQuery]
  exact List.mem_flatMap.mpr ⟨q, hq, hit⟩

/-- C8: for every document and token list, the query projection yields at
least one entry per token - an entry carrying the token's text always exists;
an invalid-format token yields its explicit error entry; a valid token with
no matching element yields an explicit not-found entry; and every element
matching a valid token (by tag name and name attribute) yields a full-detail
item.  No token is silently dropped. -/
theorem parseSdefQuery_entries :
    ∀ (doc : SdefElement) (queries : List String) (applicationName : String),
      (∀ q ∈ queries, ∃ it ∈ (parseSdefQuery doc queries applicationName).items,
        SdefQueryItem.queryOf it = q) ∧
      (∀ q ∈ queries, parseQueryToken q = none →
        SdefQueryItem.invalidFormat q ∈ (parseSdefQuery doc queries applicationName).items) ∧
      (∀ (q type name : String), q ∈ queries → parseQueryToken q = some (type, name) →
        matchingElements doc type name = [] →
        SdefQueryItem.notFound q type name ∈
          (parseSdefQuery doc queries applicationName).items) ∧
      (∀ (q type name : String) (el : SdefElement), q ∈ queries →
        parseQueryToken q = some (type, name) →
        el ∈ matchingElements doc type name →
        SdefQueryItem.found q type name el.attributes (buildQueryDetail type el) ∈
          (parseSdefQuery doc queries applicationName).items) := by
  intro doc queries applicationName
  refine ⟨?_, ?_, ?_, ?_⟩
  · intro q hq
    have hex : ∃ it ∈ processQuery doc q, SdefQueryItem.queryOf it = q := by
      cases ht : parseQueryToken q with
      | none =>
        refine ⟨.invalidFormat q, ?_, rfl⟩
        simp only [processQuery, ht]
        exact List.mem_singleton_self _
      | some tn =>
        obtain ⟨type, name⟩ := tn
        cases hm : matchingElements doc type name with
        | nil =>
          refine ⟨.notFound q type name, ?_, rfl⟩
          simp only [processQuery, ht, hm]
          exact List.mem_singleton_self _
        | cons e es =>
          refine ⟨.found q type name e.attributes (buildQueryDetail type e), ?_, rfl⟩
          simp only [processQuery, ht, hm]
          exact List.mem_map_of_mem _ (List.mem_cons_self _ _)
    obtain ⟨it, hit, hqo⟩ := hex
    exact ⟨it, processQuery_mem_items doc queries applicationName q it hq hit, hqo⟩
  · intro q hq ht
    refine processQuery_mem_items doc queries applicationName q _ hq ?_
    simp only [processQuery, ht]
    exact List.mem_singleton_self _
  · intro q type name hq ht hm
    refine processQuery_mem_items doc queries applicationName q _ hq ?_
    simp only [processQuery, ht, hm]
    exact List.mem_singleton_self _
  · intro q type name el hq ht hel
    refine processQuery_mem_items doc queries applicationName q _ hq ?_
    cases hm : matchingElements doc type name with
    | nil => rw [hm] at hel; cases hel
    | cons e es =>
      rw [hm] at hel
      simp only [processQuery, ht, hm]
      exact List.mem_map_of_mem _ hel

/-- C8 witness: on the sample document, a matched token, an unmatched token
and a malformed token each contribute their entry. -/
theorem parseSdefQuery_entries_witness :
    SdefQueryItem.found "class:document" "class" "document"
        [("name", "document"), ("description", "A document.")]
        (buildQueryDetail "class" sampleClassElement) ∈
      (parseSdefQuery sampleSdefDoc ["class:document", "class:missing", "nocolon"]
        "TestApp").items ∧
    SdefQueryItem.notFound "class:missing" "class" "missing" ∈
      (parseSdefQuery sampleSdefDoc ["class:document", "class:missing", "nocolon"]
        "TestApp").items ∧
    SdefQueryItem.invalidFormat "nocolon" ∈
      (parseSdefQuery sampleSdefDoc ["class:document", "class:missing", "nocolon"]
        "TestApp").items := by
  have h := parseSdefQuery_entries sampleSdefDoc
    ["class:document", "class:missing", "nocolon"] "TestApp"
  refine ⟨?_, ?_, ?_⟩
  · have hel : sampleClassElement ∈ matchingElements sampleSdefDoc "class" "document" := by
      rw [show matchingElements sampleSdefDoc "class" "document" = [sampleClassElement]
        from rfl]
      exact List.mem_singleton_self _
    exact h.2.2.2 "class:document" "class" "document" sampleClassElement
      (by simp) rfl hel
  · exact h.2.2.1 "class:missing" "class" "missing" (by simp) rfl rfl
  · exact h.2.1 "nocolon" (by simp) rfl
